import Mathlib

/-!
Shallow embedding of the host-authoritative session engine of the
One-Night-Ultimate-Werewolf repository (src/App.tsx, src/constants.tsx,
src/types.ts, src/components/game/NightPhase.tsx), together with proofs
settling the specification claims about it.

Conventions of the embedding:
* JavaScript objects used as string-keyed maps (`votes`, `voteCounts`)
  are modelled as association lists with JS object-literal insertion
  semantics: updating an existing key rewrites it in place, a fresh key
  is appended at the end (`Object.values` / `Object.keys` then traverse
  in that order, exactly as the source's `forEach` loops do).
* `Math.random()`-driven choices (the deck shuffle, the random first
  speaker index) are passed in as explicit parameters; theorems
  quantify over them or constrain them the way the source constrains
  the drawn number.
* JS `Array.prototype.sort` is stable (ES2019); it is modelled with the
  stable `List.insertionSort`.
* `undefined` / `null` results of out-of-range indexing are modelled
  with `Option`.
-/

namespace ONUW

/-- Enumeration `RoleType` from src/types.ts. -/
inductive RoleType where
  | WEREWOLF
  | MINION
  | MASON
  | SEER
  | ROBBER
  | TROUBLEMAKER
  | DRUNK
  | INSOMNIAC
  | VILLAGER
  | TANNER
  | HUNTER
deriving DecidableEq, Repr

/-- Enumeration `RoleTeam` from src/types.ts. -/
inductive RoleTeam where
  | VILLAGER
  | WEREWOLF
  | TANNER
deriving DecidableEq, Repr

/-- Enumeration `GamePhase` from src/types.ts. -/
inductive GamePhase where
  | LOBBY
  | ROLE_REVEAL
  | NIGHT_INTRO
  | NIGHT_ACTIVE
  | DAY_DISCUSSION
  | DAY_VOTING
  | DAY_RESULTS
  | GAME_REVIEW
  | GAME_OVER
deriving DecidableEq, Repr

/-- The `team` field of each entry of the `ROLES` record (src/constants.tsx). -/
def roleTeam : RoleType → RoleTeam
  | .WEREWOLF => .WEREWOLF
  | .MINION => .WEREWOLF
  | .MASON => .VILLAGER
  | .SEER => .VILLAGER
  | .ROBBER => .VILLAGER
  | .TROUBLEMAKER => .VILLAGER
  | .DRUNK => .VILLAGER
  | .INSOMNIAC => .VILLAGER
  | .VILLAGER => .VILLAGER
  | .TANNER => .TANNER
  | .HUNTER => .VILLAGER

/-- The `nightOrder` field of each entry of the `ROLES` record
(src/constants.tsx). -/
def nightOrder : RoleType → Int
  | .WEREWOLF => 2
  | .MINION => 3
  | .MASON => 4
  | .SEER => 5
  | .ROBBER => 6
  | .TROUBLEMAKER => 7
  | .DRUNK => 8
  | .INSOMNIAC => 9
  | .VILLAGER => -1
  | .TANNER => -1
  | .HUNTER => -1

/-- `Object.values(ROLES)` in the insertion order of the `ROLES` record
literal (src/constants.tsx lines 39-172). -/
def rolesValues : List RoleType :=
  [.WEREWOLF, .MINION, .MASON, .SEER, .ROBBER, .TROUBLEMAKER, .DRUNK,
   .INSOMNIAC, .VILLAGER, .TANNER, .HUNTER]

/-- `NIGHT_SEQUENCE` (src/constants.tsx lines 175-178):
`Object.values(ROLES).filter(r => r.nightOrder > 0)
  .sort((a, b) => a.nightOrder - b.nightOrder).map(r => r.type)`. -/
def NIGHT_SEQUENCE : List RoleType :=
  ((rolesValues.filter (fun r => nightOrder r > 0)).insertionSort
    (fun a b => nightOrder a ≤ nightOrder b))

/-- `Player` interface from src/types.ts (the optional cosmetic fields
`isBot` and `color` play no role in the session engine and are omitted). -/
structure Player where
  id : String
  name : String
  seatNumber : Option Nat
  role : Option RoleType
  initialRole : Option RoleType
  isHost : Bool
deriving DecidableEq, Repr

/-- `GameResult` interface from src/types.ts. -/
structure GameResult where
  winners : List RoleTeam
  deadPlayerIds : List String
  winningReason : String
deriving DecidableEq, Repr

/-- The `settings` record inside `GameState` (src/types.ts). -/
structure GameSettings where
  playerCount : Nat
  useDoppelganger : Bool
deriving DecidableEq, Repr

/-- `GameState` interface from src/types.ts. The `votes` record
(voterId → targetId) is modelled as an association list in JS object
insertion order. -/
structure GameState where
  roomCode : String
  players : List Player
  centerCards : List RoleType
  currentPhase : GamePhase
  currentNightRoleIndex : Nat
  timer : Int
  votes : List (String × String)
  settings : GameSettings
  speakerId : Option String
  gameResult : Option GameResult
  log : List String
deriving DecidableEq, Repr

/-- `getInitialState()` from src/App.tsx lines 25-38. -/
def getInitialState : GameState where
  roomCode := ""
  players := []
  centerCards := []
  currentPhase := .LOBBY
  currentNightRoleIndex := 0
  timer := 0
  votes := []
  settings := { playerCount := 4, useDoppelganger := false }
  speakerId := none
  gameResult := none
  log := []

/-- P2P message type from src/App.tsx lines 17-23 (the `SYNC_STATE` and
`ACTION_GAME_OVER` constructors carry no host-side state transition and
are omitted: the host's `switch` has no case for them, so they leave the
state untouched). -/
inductive NetworkMessage where
  | hello (player : Player)
  | claimSeat (playerId : String) (seatNumber : Nat)
  | vote (voterId : String) (targetId : String)
  | phaseChange (phase : GamePhase) (speakerId : Option String)
deriving DecidableEq, Repr

/-- JS object-literal upsert `{ ...votes, [voterId]: targetId }`:
an existing key keeps its position and gets the new value, a fresh key
is appended. -/
def upsertVote (votes : List (String × String)) (voterId targetId : String) :
    List (String × String) :=
  if votes.any (fun p => p.1 = voterId) then
    votes.map (fun p => if p.1 = voterId then (p.1, targetId) else p)
  else
    votes ++ [(voterId, targetId)]

/-- Replace the player at position `i` with the same player carrying the
given seat number (the in-place mutation
`newState.players[pIdx].seatNumber = data.seatNumber` of the source). -/
def setSeatAt : List Player → Nat → Nat → List Player
  | [], _, _ => []
  | p :: ps, 0, seat => { p with seatNumber := some seat } :: ps
  | p :: ps, i + 1, seat => p :: setSeatAt ps i seat

/-- `handleHostMessage` (src/App.tsx lines 166-212), the host's action
resolver for guest messages. Returns the new state together with the
`shouldBroadcast` flag computed by the source; the source surfaces no
error channel to the sender. The JS truthiness test
`if (data.speakerId)` is false for `undefined` and for the empty
string. -/
def handleHostMessage (g : GameState) : NetworkMessage → GameState × Bool
  | .hello player =>
    let players' :=
      if g.players.any (fun p => p.id = player.id) then g.players
      else g.players ++ [player]
    ({ g with players := players' }, true)
  | .claimSeat playerId seatNumber =>
    match g.players.findIdx? (fun p => p.id = playerId) with
    | some pIdx =>
      if g.players.any (fun p => p.seatNumber = some seatNumber) then
        (g, false)
      else
        ({ g with players := setSeatAt g.players pIdx seatNumber }, true)
    | none => (g, false)
  | .vote voterId targetId =>
    ({ g with votes := upsertVote g.votes voterId targetId }, true)
  | .phaseChange phase speakerId =>
    let g' := { g with currentPhase := phase }
    match speakerId with
    | some s => if s ≠ "" then ({ g' with speakerId := some s }, true) else (g', true)
    | none => (g', true)

/-- `balanceOrder` template list inside `projectedDeck`
(src/App.tsx lines 81-86). -/
def balanceOrder : List RoleType :=
  [.WEREWOLF, .WEREWOLF,
   .SEER, .ROBBER, .TROUBLEMAKER,
   .VILLAGER, .TANNER, .INSOMNIAC,
   .MASON, .MASON, .MINION, .DRUNK, .HUNTER]

/-- `projectedDeck` (src/App.tsx lines 79-88):
`count = Math.max(playerCount, 3); balanceOrder.slice(0, count + 3)`. -/
def projectedDeck (playerCount : Nat) : List RoleType :=
  balanceOrder.take (max playerCount 3 + 3)

/-- Sort key `(a.seatNumber || 99)` used by `startGame`'s player sort:
JS `||` treats `null` and `0` as falsy. -/
def seatKey (p : Player) : Nat :=
  match p.seatNumber with
  | some n => if n = 0 then 99 else n
  | none => 99

/-- The stable ascending sort
`[...gameState.players].sort((a,b) => (a.seatNumber||99) - (b.seatNumber||99))`
of `startGame`. -/
def sortPlayersBySeat (players : List Player) : List Player :=
  players.insertionSort (fun a b => seatKey a ≤ seatKey b)

/-- The role assignment
`sortedPlayers.map((p, idx) => ({ ...p, role: shuffled[idx], initialRole: shuffled[idx] }))`
of `startGame`: player `idx` receives card `idx` of the shuffled deck;
an out-of-range index yields `undefined` (`none`). -/
def assignRoles : List Player → List RoleType → List Player
  | [], _ => []
  | p :: ps, r :: rs =>
    { p with role := some r, initialRole := some r } :: assignRoles ps rs
  | p :: ps, [] =>
    { p with role := none, initialRole := none } :: assignRoles ps []

/-- `startGame` (src/App.tsx lines 333-358), with the already shuffled
deck passed in as a parameter (the source computes it as
`[...projectedDeck].sort(() => 0.5 - Math.random())`, a random-comparator
sort producing some permutation of `projectedDeck`). -/
def startGame (g : GameState) (shuffled : List RoleType) : GameState :=
  let sortedPlayers := sortPlayersBySeat g.players
  let updatedPlayers := assignRoles sortedPlayers shuffled
  { g with
    players := updatedPlayers
    centerCards := shuffled.drop updatedPlayers.length
    currentPhase := .ROLE_REVEAL
    timer := 5
    votes := []
    gameResult := none }

/-- `voteCounts[targetId] = (voteCounts[targetId] || 0) + 1` applied to
one target id. -/
def bumpCount (m : List (String × Nat)) (k : String) : List (String × Nat) :=
  if m.any (fun p => p.1 = k) then
    m.map (fun p => if p.1 = k then (p.1, p.2 + 1) else p)
  else
    m ++ [(k, 1)]

/-- `Object.values(votes).forEach(targetId => ...)` tally loop of
`processVotingResults` (src/App.tsx lines 366-371), applied to the list
of target ids. -/
def voteCounts (targets : List String) : List (String × Nat) :=
  targets.foldl bumpCount []

/-- Count lookup `voteCounts[pid]` with the JS `|| 0` default. -/
def countOf (m : List (String × Nat)) (k : String) : Nat :=
  match m.find? (fun p => p.1 = k) with
  | some p => p.2
  | none => 0

/-- `maxVotes` loop of `processVotingResults` (src/App.tsx lines 373-377). -/
def maxVotes (m : List (String × Nat)) : Nat :=
  m.foldl (fun mx p => if p.2 > mx then p.2 else mx) 0

/-- `deadPlayerIds` computation of `processVotingResults`
(src/App.tsx lines 379-387): empty when nobody voted, else every key of
`voteCounts` whose tally equals `maxVotes`. -/
def deadIdsOf (targets : List String) : List String :=
  let counts := voteCounts targets
  let mx := maxVotes counts
  if mx > 0 then
    (counts.filter (fun p => p.2 = mx)).map (fun p => p.1)
  else
    []

/-- `processVotingResults` (src/App.tsx lines 362-431): tallies the
votes, executes every maximally voted target, determines the winning
team from the executed players' current roles, and moves the session to
`DAY_RESULTS` with the populated `gameResult`. -/
def processVotingResults (g : GameState) : GameState :=
  let targets := g.votes.map (fun p => p.2)
  let deadPlayerIds := deadIdsOf targets
  let deadPlayers := g.players.filter (fun p => deadPlayerIds.contains p.id)
  let hasTannerDied := deadPlayers.any (fun p => p.role = some .TANNER)
  let hasWerewolfDied := deadPlayers.any (fun p => p.role = some .WEREWOLF)
  let wolfCount := (g.players.filter (fun p => p.role = some .WEREWOLF)).length
  let winners : List RoleTeam :=
    if hasTannerDied then [.TANNER]
    else if hasWerewolfDied then [.VILLAGER]
    else if wolfCount = 0 ∧ deadPlayers.length = 0 then [.VILLAGER]
    else if wolfCount = 0 ∧ deadPlayers.length > 0 then [.WEREWOLF]
    else [.WEREWOLF]
  let winningReason :=
    if hasTannerDied then "皮匠被处决，皮匠获胜！(The Tanner died)"
    else if hasWerewolfDied then "狼人被处决，好人阵营获胜！(A Werewolf died)"
    else if wolfCount = 0 ∧ deadPlayers.length = 0 then
      "没有狼人且无人死亡，好人获胜！(No Wolves, No Deaths)"
    else if wolfCount = 0 ∧ deadPlayers.length > 0 then
      "没有狼人但误杀了无辜者，大家输了。(Innocent killed, Village lost)"
    else "狼人潜伏在村庄中幸存，狼人阵营获胜！(Werewolves Survived)"
  { g with
    currentPhase := .DAY_RESULTS
    gameResult := some
      { winners := winners
        deadPlayerIds := deadPlayerIds
        winningReason := winningReason } }

/-- The `ROLE_REVEAL` countdown tick (src/App.tsx lines 441-455): at 1
or below the host moves to `NIGHT_INTRO`, otherwise the timer counts
down. -/
def roleRevealTick (g : GameState) : GameState :=
  if g.timer ≤ 1 then { g with currentPhase := .NIGHT_INTRO, timer := 0 }
  else { g with timer := g.timer - 1 }

/-- The `NIGHT_INTRO` timeout (src/App.tsx lines 461-467): after the
narration pause the host enters `NIGHT_ACTIVE` at night index 0. -/
def nightIntroTimeout (g : GameState) : GameState :=
  { g with currentPhase := .NIGHT_ACTIVE, currentNightRoleIndex := 0 }

/-- `advanceNightPhase` (src/App.tsx lines 472-496) with the drawn
speaker index `Math.floor(Math.random() * prev.players.length)` passed
as the parameter `randomIdx`. When the incremented index reaches
`NIGHT_SEQUENCE.length` the host moves to `DAY_DISCUSSION` and appoints
`players[randomIdx]` as first speaker; otherwise the index advances. -/
def advanceNightPhase (g : GameState) (randomIdx : Nat) : GameState :=
  let nextIndex := g.currentNightRoleIndex + 1
  if nextIndex ≥ NIGHT_SEQUENCE.length then
    { g with
      currentPhase := .DAY_DISCUSSION
      timer := 0
      speakerId := (g.players.get? randomIdx).map (fun p => p.id) }
  else
    { g with currentNightRoleIndex := nextIndex }

/-- `handleNightAction` (src/App.tsx lines 498-500). The entire body of
the source function is the comment `// Placeholder for night logic`:
no night action mutates the session state. -/
def handleNightAction (g : GameState) (_actionType : String)
    (_targetIds : List String) : GameState :=
  g

/-- The role the night UI presents at the current night index:
`NIGHT_SEQUENCE[gameState.currentNightRoleIndex]`
(src/components/game/NightPhase.tsx line 68). -/
def currentNightRole (g : GameState) : Option RoleType :=
  NIGHT_SEQUENCE.get? g.currentNightRoleIndex

example : NIGHT_SEQUENCE =
    [.WEREWOLF, .MINION, .MASON, .SEER, .ROBBER, .TROUBLEMAKER, .DRUNK,
     .INSOMNIAC] := by decide

example : projectedDeck 3 =
    [.WEREWOLF, .WEREWOLF, .SEER, .ROBBER, .TROUBLEMAKER, .VILLAGER] := by decide

/-- Lookup of a voter's entry in the votes record (`votes[voterId]`). -/
def lookupVote (votes : List (String × String)) (k : String) : Option String :=
  (votes.find? (fun p => p.1 = k)).map (fun p => p.2)

/-- The claim's tally of a target: the number of votes cast for it. -/
def tallyOf (targets : List String) (t : String) : Nat :=
  targets.count t

/-- The claim's `max`: the highest tally over the cast votes, `0` when no
votes were cast. -/
def maxTallySpec (targets : List String) : Nat :=
  (targets.map (fun t => targets.count t)).foldr Nat.max 0

/-- Win determination exactly as the claim words it, in strict priority
order over the executed set and the players' current roles:
(1) an executed player currently holding Tanner makes Tanner win
outright; (2) else an executed player currently holding Werewolf makes
Villager win; (3) else if nobody holds Werewolf and nobody was executed,
Villager wins; (4) else if nobody holds Werewolf but someone was
executed, Werewolf wins; (5) else Werewolf wins. -/
def claimWinners (players : List Player) (executed : List String) : List RoleTeam :=
  if ∃ p ∈ players, executed.contains p.id ∧ p.role = some RoleType.TANNER then
    [.TANNER]
  else if ∃ p ∈ players, executed.contains p.id ∧ p.role = some RoleType.WEREWOLF then
    [.VILLAGER]
  else if (∀ p ∈ players, p.role ≠ some RoleType.WEREWOLF) ∧ executed = [] then
    [.VILLAGER]
  else if (∀ p ∈ players, p.role ≠ some RoleType.WEREWOLF) ∧ executed ≠ [] then
    [.WEREWOLF]
  else
    [.WEREWOLF]

/-- Helper building a seated participant with identical display name and
with `initialRole = role`, as produced by dealing. -/
def mkPlayer (id : String) (seat : Nat) (r : Option RoleType) (host : Bool) : Player :=
  { id := id, name := id, seatNumber := some seat, role := r,
    initialRole := r, isHost := host }

/-- Concrete voting state for the Hunter claim: participant `A`
currently holds Hunter and voted for `B`; `B` and `C` both voted for
`A`. -/
def gHunter : GameState :=
  { getInitialState with
    roomCode := "9000"
    currentPhase := .DAY_VOTING
    players := [mkPlayer "A" 1 (some .HUNTER) true,
                mkPlayer "B" 2 (some .VILLAGER) false,
                mkPlayer "C" 3 (some .VILLAGER) false]
    votes := [("B", "A"), ("C", "A"), ("A", "B")] }

/-- Concrete voting state with 4 voters split 2-2 between targets `A`
and `B`. -/
def gTie : GameState :=
  { getInitialState with
    roomCode := "9001"
    currentPhase := .DAY_VOTING
    players := [mkPlayer "A" 1 (some .VILLAGER) true,
                mkPlayer "B" 2 (some .WEREWOLF) false,
                mkPlayer "C" 3 (some .SEER) false,
                mkPlayer "D" 4 (some .ROBBER) false]
    votes := [("A", "B"), ("B", "A"), ("C", "A"), ("D", "B")] }

/-- Concrete night state for the Robber claim: `A`'s initial role is
Robber, `B` currently holds Werewolf. -/
def gRobber : GameState :=
  { getInitialState with
    roomCode := "9002"
    currentPhase := .NIGHT_ACTIVE
    players := [mkPlayer "A" 1 (some .ROBBER) true,
                mkPlayer "B" 2 (some .WEREWOLF) false] }

/-- Concrete lobby state (phase `LOBBY`, one connected host, empty
votes) used to exercise the vote handler outside the voting phase. -/
def gLobbyVote : GameState :=
  { getInitialState with
    roomCode := "9003"
    players := [mkPlayer "host" 1 none true] }

/-- Concrete lobby state with a single participant, used to reach a
votes map larger than the participant list. -/
def gOneSeat : GameState :=
  { getInitialState with
    roomCode := "9004"
    players := [mkPlayer "host" 1 none true] }

/-- Concrete three-player lobby about to start a 3-player game. -/
def gLobby3 : GameState :=
  { getInitialState with
    roomCode := "9005"
    players := [mkPlayer "p1" 1 none true,
                mkPlayer "p2" 2 none false,
                mkPlayer "p3" 3 none false]
    settings := { playerCount := 3, useDoppelganger := false } }

/-- The session state reached from `gLobby3` by dealing the 3-player
deck in template order (one legal outcome of the shuffle), letting the
reveal and night-intro timers elapse, and advancing the night once:
the host is then at night index 1. -/
def gNightIdx1 : GameState :=
  advanceNightPhase (nightIntroTimeout (startGame gLobby3 (projectedDeck 3))) 0

/-- Concrete two-player lobby used as a witness for seat claiming:
seat 1 is occupied by the host, participant `guest` is unseated. -/
def gSeats : GameState :=
  { getInitialState with
    roomCode := "9006"
    players := [mkPlayer "host" 1 none true,
                { id := "guest", name := "guest", seatNumber := none,
                  role := none, initialRole := none, isHost := false }] }

/-- Concrete four-player lobby used as a witness for game start. -/
def gLobby4 : GameState :=
  { getInitialState with
    roomCode := "9007"
    players := [mkPlayer "q1" 1 none true,
                mkPlayer "q2" 2 none false,
                mkPlayer "q3" 3 none false,
                mkPlayer "q4" 4 none false]
    settings := { playerCount := 4, useDoppelganger := false } }

/-- Concrete voting state for the win-priority witness: a tie executes
both `A` (current role Tanner) and `B` (current role Werewolf). -/
def gTannerWolf : GameState :=
  { getInitialState with
    roomCode := "9008"
    currentPhase := .DAY_VOTING
    players := [mkPlayer "A" 1 (some .TANNER) true,
                mkPlayer "B" 2 (some .WEREWOLF) false]
    votes := [("A", "B"), ("B", "A")] }

/-- The tally invariant carried through the `voteCounts` fold: the
association list `acc` holds exactly one entry per target seen so far
in `h`, carrying that target's occurrence count in `h`. -/
def CountsFor (h : List String) (acc : List (String × Nat)) : Prop :=
  ∀ t c, (t, c) ∈ acc ↔ (t ∈ h ∧ c = h.count t)

/-! ### Theorems settling the claims -/

/-- C3: the claim asserts an executed Hunter's own vote target is also
executed. In the code no retaliation chain exists: in `gHunter`,
participant `A` currently holds Hunter, voted for `B`, and is executed
with the vote maximum, yet the resulting `deadPlayerIds` is exactly
`["A"]` — `B` is not added. -/
theorem hunter_chain_missing :
    (gHunter.players.find? (fun p => p.id = "A")).map (fun p => p.role)
        = some (some RoleType.HUNTER) ∧
    lookupVote gHunter.votes "A" = some "B" ∧
    ((processVotingResults gHunter).gameResult.map
        (fun r => r.deadPlayerIds)) = some ["A"] ∧
    ¬ ((processVotingResults gHunter).gameResult.map
        (fun r => r.deadPlayerIds)) = some ["A", "B"] := by
  refine ⟨by decide, by decide, by decide, by decide⟩

/-- C4: the claim asserts a Robber-swap action exchanges the `role`
fields of actor and target. The host's night-action resolver
`handleNightAction` is a placeholder that performs no mutation: in
`gRobber` the actor's initial role is Robber and the target differs
from the actor, yet after resolving the swap every role (and the whole
state) is unchanged — no exchange happens. -/
theorem robberSwap_no_mutation :
    handleNightAction gRobber "ROBBER_SWAP" ["B"] = gRobber ∧
    ((handleNightAction gRobber "ROBBER_SWAP" ["B"]).players.map
        (fun p => p.role)) = [some RoleType.ROBBER, some RoleType.WEREWOLF] ∧
    ((handleNightAction gRobber "ROBBER_SWAP" ["B"]).players.map
        (fun p => p.role)) ≠ [some RoleType.WEREWOLF, some RoleType.ROBBER] := by
  refine ⟨rfl, by decide, by decide⟩

/-- C5 counterexample: in a dealt 3-player game (deck `[Werewolf,
Werewolf, Seer, Robber, Troublemaker, Villager]`), after the first
night advance the host's night index designates Minion, a role held by
zero hands — the night-order sequence the host steps through is not
filtered to dealt roles. -/
theorem nightIndex_designates_undealt_role :
    gNightIdx1.currentPhase = GamePhase.NIGHT_ACTIVE ∧
    gNightIdx1.currentNightRoleIndex = 1 ∧
    currentNightRole gNightIdx1 = some RoleType.MINION ∧
    gNightIdx1.players.all
      (fun p => p.initialRole ≠ some RoleType.MINION ∧
                p.role ≠ some RoleType.MINION) = true := by
  refine ⟨by decide, by decide, by decide, by decide⟩

/-- C8 counterexample: a vote message received in the `LOBBY` phase
(voting not active) is not ignored: the host records it in the votes
map and broadcasts the mutated state. -/
theorem vote_outside_voting_phase_mutates :
    gLobbyVote.currentPhase = GamePhase.LOBBY ∧
    handleHostMessage gLobbyVote (.vote "host" "x")
      = ({ gLobbyVote with votes := [("host", "x")] }, true) ∧
    ¬ handleHostMessage gLobbyVote (.vote "host" "x") = (gLobbyVote, false) := by
  refine ⟨by decide, by decide, by decide⟩

/-- C9 counterexample: starting from a session with one participant,
two vote messages with distinct voter ids (the handler checks neither
membership nor phase) leave the votes map with 2 entries against 1
participant, and a subsequent transition into the voting phase does not
clear the votes map. -/
theorem votes_exceed_participants_reachable :
    ((handleHostMessage ((handleHostMessage gOneSeat (.vote "a" "t")).1)
        (.vote "b" "t")).1).votes.length = 2 ∧
    ((handleHostMessage ((handleHostMessage gOneSeat (.vote "a" "t")).1)
        (.vote "b" "t")).1).players.length = 1 ∧
    ((handleHostMessage
        ((handleHostMessage ((handleHostMessage gOneSeat (.vote "a" "t")).1)
            (.vote "b" "t")).1)
        (.phaseChange .DAY_VOTING none)).1).currentPhase
      = GamePhase.DAY_VOTING ∧
    ((handleHostMessage
        ((handleHostMessage ((handleHostMessage gOneSeat (.vote "a" "t")).1)
            (.vote "b" "t")).1)
        (.phaseChange .DAY_VOTING none)).1).votes = [("a", "t"), ("b", "t")] := by
  refine ⟨by decide, by decide, by decide, by decide⟩

/-- C9 amended: the votes map is emptied by `startGame` (the host
clears it when dealing a new game), while the phase change into
`DAY_VOTING` leaves the votes map untouched — clearing happens per
game, not per voting phase. -/
theorem votes_cleared_at_start_not_at_voting :
    (∀ (g : GameState) (shuffled : List RoleType),
        (startGame g shuffled).votes = []) ∧
    (∀ (g : GameState) (sp : Option String),
        ((handleHostMessage g (.phaseChange .DAY_VOTING sp)).1).votes
          = g.votes) := by
  constructor
  · intro g shuffled
    rfl
  · intro g sp
    cases sp with
    | none => rfl
    | some s =>
      by_cases h : s = ""
      · simp [handleHostMessage, h]
      · simp [handleHostMessage, h]

/-! ### Association-list lemmas for the JS object model -/

theorem find?_append_of_none {α : Type} {p : α → Bool} {l₂ : List α} :
    ∀ l₁ : List α, l₁.find? p = none → (l₁ ++ l₂).find? p = l₂.find? p
  | [], _ => rfl
  | a :: l, h => by
    by_cases ha : p a
    · rw [List.find?_cons_of_pos _ ha] at h
      exact absurd h (by simp)
    · rw [List.find?_cons_of_neg _ ha] at h
      rw [List.cons_append, List.find?_cons_of_neg _ ha]
      exact find?_append_of_none l h

theorem find?_of_any_false {α : Type} {p : α → Bool} :
    ∀ l : List α, l.any p = false → l.find? p = none := by
  intro l h
  rw [List.find?_eq_none]
  intro x hx hpx
  have htrue : l.any p = true := List.any_eq_true.mpr ⟨x, hx, hpx⟩
  rw [h] at htrue
  exact Bool.false_ne_true htrue

theorem find?_append_of_some {α : Type} {p : α → Bool} {l₂ : List α} {a : α} :
    ∀ l₁ : List α, l₁.find? p = some a → (l₁ ++ l₂).find? p = some a
  | [], h => by simp at h
  | b :: l, h => by
    by_cases hb : p b
    · rw [List.find?_cons_of_pos _ hb] at h
      rw [List.cons_append, List.find?_cons_of_pos _ hb]
      exact h
    · rw [List.find?_cons_of_neg _ hb] at h
      rw [List.cons_append, List.find?_cons_of_neg _ hb]
      exact find?_append_of_some l h

theorem find?_mapUpsert_self (v t : String) :
    ∀ votes : List (String × String), votes.any (fun p => p.1 = v) = true →
      (votes.map (fun p => if p.1 = v then (p.1, t) else p)).find?
          (fun p => p.1 = v) = some (v, t)
  | [], h => by simp at h
  | hd :: tl, h => by
    by_cases hh : hd.1 = v
    · rw [List.map_cons, if_pos hh, hh]
      exact List.find?_cons_of_pos _ (by simp)
    · have h' : tl.any (fun p => p.1 = v) = true := by
        simpa [List.any_cons, hh] using h
      rw [List.map_cons, if_neg hh,
        List.find?_cons_of_neg _ (by simpa using hh)]
      exact find?_mapUpsert_self v t tl h'

theorem find?_mapUpsert_other (v t w : String) (hw : w ≠ v) :
    ∀ votes : List (String × String),
      (votes.map (fun p => if p.1 = v then (p.1, t) else p)).find?
          (fun p => p.1 = w)
        = votes.find? (fun p => p.1 = w)
  | [] => rfl
  | hd :: tl => by
    by_cases hh : hd.1 = w
    · have hv : ¬ hd.1 = v := by
        rw [hh]; exact hw
      rw [List.map_cons, if_neg hv,
        List.find?_cons_of_pos _ (by simpa using hh),
        List.find?_cons_of_pos _ (by simpa using hh)]
    · have hrec := find?_mapUpsert_other v t w hw tl
      rw [List.map_cons]
      by_cases hv : hd.1 = v
      · rw [if_pos hv,
          List.find?_cons_of_neg _ (by simp [hv, Ne.symm hw]),
          List.find?_cons_of_neg _ (by simpa using hh)]
        exact hrec
      · rw [if_neg hv,
          List.find?_cons_of_neg _ (by simpa using hh),
          List.find?_cons_of_neg _ (by simpa using hh)]
        exact hrec

theorem find?_upsertVote_self (votes : List (String × String)) (v t : String) :
    (upsertVote votes v t).find? (fun p => p.1 = v) = some (v, t) := by
  unfold upsertVote
  by_cases hany : votes.any (fun p => p.1 = v)
  · rw [if_pos hany]
    exact find?_mapUpsert_self v t votes hany
  · rw [if_neg hany]
    have hnone : votes.find? (fun p => p.1 = v) = none :=
      find?_of_any_false votes (Bool.eq_false_iff.mpr hany)
    rw [find?_append_of_none votes hnone]
    simp

theorem find?_upsertVote_other (votes : List (String × String)) (v t w : String)
    (hw : w ≠ v) :
    (upsertVote votes v t).find? (fun p => p.1 = w)
      = votes.find? (fun p => p.1 = w) := by
  unfold upsertVote
  by_cases hany : votes.any (fun p => p.1 = v)
  · rw [if_pos hany]
    exact find?_mapUpsert_other v t w hw votes
  · rw [if_neg hany]
    cases hfind : votes.find? (fun p => p.1 = w) with
    | none =>
      rw [find?_append_of_none votes hfind]
      simp [Ne.symm hw]
    | some a =>
      exact find?_append_of_some votes hfind

theorem upsertVote_keys (votes : List (String × String)) (v t : String) :
    (upsertVote votes v t).map Prod.fst
      = if votes.any (fun p => p.1 = v) then votes.map Prod.fst
        else votes.map Prod.fst ++ [v] := by
  unfold upsertVote
  by_cases hany : votes.any (fun p => p.1 = v)
  · rw [if_pos hany, if_pos hany, List.map_map]
    apply List.map_congr_left
    intro p _
    by_cases hp : p.1 = v <;> simp [hp]
  · rw [if_neg hany, if_neg hany]
    simp

theorem upsertVote_keys_nodup (votes : List (String × String)) (v t : String)
    (h : (votes.map Prod.fst).Nodup) :
    ((upsertVote votes v t).map Prod.fst).Nodup := by
  rw [upsertVote_keys]
  by_cases hany : votes.any (fun p => p.1 = v)
  · rwa [if_pos hany]
  · rw [if_neg hany]
    have hv : v ∉ votes.map Prod.fst := by
      intro hmem
      apply hany
      rcases List.mem_map.mp hmem with ⟨p, hp, hpv⟩
      exact List.any_eq_true.mpr ⟨p, hp, by simp [hpv]⟩
    rw [List.nodup_append]
    refine ⟨h, List.nodup_singleton v, ?_⟩
    intro a ha hav
    rw [List.mem_singleton] at hav
    exact hv (hav ▸ ha)

/-- C8 amended: the host applies a Cast-vote message unconditionally,
in every phase: the voter's entry is upserted (the voter's lookup now
yields the new target, every other voter's entry is untouched, and
one-entry-per-voter keying is preserved), the rest of the state is
unchanged, and the new state is always broadcast — a vote arriving
outside the voting phase is handled identically rather than ignored. -/
theorem vote_upsert_any_phase (g : GameState) (v t : String) :
    (handleHostMessage g (.vote v t)).2 = true ∧
    (handleHostMessage g (.vote v t)).1.currentPhase = g.currentPhase ∧
    (handleHostMessage g (.vote v t)).1.players = g.players ∧
    lookupVote ((handleHostMessage g (.vote v t)).1.votes) v = some t ∧
    (∀ w, w ≠ v →
      lookupVote ((handleHostMessage g (.vote v t)).1.votes) w
        = lookupVote g.votes w) ∧
    ((g.votes.map Prod.fst).Nodup →
      (((handleHostMessage g (.vote v t)).1.votes).map Prod.fst).Nodup) := by
  refine ⟨rfl, rfl, rfl, ?_, ?_, ?_⟩
  · show lookupVote (upsertVote g.votes v t) v = some t
    rw [lookupVote, find?_upsertVote_self]
    rfl
  · intro w hw
    show lookupVote (upsertVote g.votes v t) w = lookupVote g.votes w
    rw [lookupVote, find?_upsertVote_other g.votes v t w hw]
    rfl
  · intro h
    exact upsertVote_keys_nodup g.votes v t h

/-- C8 amended witness: instantiation of `vote_upsert_any_phase` at the
concrete lobby state. -/
theorem vote_upsert_any_phase_witness :
    lookupVote ((handleHostMessage gLobbyVote (.vote "host" "x")).1.votes)
        "host" = some "x" ∧
    (((handleHostMessage gLobbyVote (.vote "host" "x")).1.votes).map
        Prod.fst).Nodup := by
  have h := vote_upsert_any_phase gLobbyVote "host" "x"
  exact ⟨h.2.2.2.1, h.2.2.2.2.2 (by decide)⟩

theorem findIdx?_start_spec {α : Type} (p : α → Bool) :
    ∀ (l : List α) (s i : Nat), l.findIdx? p s = some i →
      s ≤ i ∧ ∃ a, l.get? (i - s) = some a ∧ p a = true
  | [], s, i, h => by
    rw [List.findIdx?_nil] at h
    exact absurd h (by simp)
  | x :: xs, s, i, h => by
    rw [List.findIdx?_cons] at h
    by_cases hx : p x = true
    · rw [if_pos hx] at h
      have hsi : s = i := Option.some.inj h
      subst hsi
      exact ⟨Nat.le_refl s, x, by simp [Nat.sub_self], hx⟩
    · rw [if_neg hx] at h
      obtain ⟨hle, a, ha, hpa⟩ := findIdx?_start_spec p xs (s + 1) i h
      refine ⟨by omega, a, ?_, hpa⟩
      have hshift : i - s = (i - (s + 1)) + 1 := by omega
      rw [hshift]
      simpa using ha

theorem setSeatAt_eq_set :
    ∀ (ps : List Player) (i : Nat) (req : Player), ps.get? i = some req →
      ∀ seat, setSeatAt ps i seat = ps.set i { req with seatNumber := some seat }
  | [], i, req, h => by simp at h
  | p :: ps, 0, req, h => by
    intro seat
    have hp : p = req := Option.some.inj (by simpa using h)
    subst hp
    rfl
  | p :: ps, i + 1, req, h => by
    intro seat
    have h' : ps.get? i = some req := by simpa using h
    show p :: setSeatAt ps i seat = (p :: ps).set (i + 1) _
    rw [List.set_cons_succ, setSeatAt_eq_set ps i req h' seat]

/-- C7: resolution of a Claim-seat request for a connected requester.
If any participant already occupies the requested seat (the check
includes the requester), the host leaves the state completely unchanged
and does not broadcast (the resolver has no error channel, so nothing
is surfaced to the sender); otherwise it sets the requested seat number
on the requesting participant and broadcasts. -/
theorem claimSeat_resolution (g : GameState) (pid : String) (seat : Nat)
    (i : Nat) (hfind : g.players.findIdx? (fun p => p.id = pid) = some i) :
    ((g.players.any (fun p => p.seatNumber = some seat)) = true →
        handleHostMessage g (.claimSeat pid seat) = (g, false)) ∧
    ((g.players.any (fun p => p.seatNumber = some seat)) = false →
      ∃ req, g.players.get? i = some req ∧ req.id = pid ∧
        handleHostMessage g (.claimSeat pid seat)
          = ({ g with players :=
                g.players.set i { req with seatNumber := some seat } }, true)) := by
  obtain ⟨-, req, hreq, hpid⟩ :=
    findIdx?_start_spec (fun p => p.id = pid) g.players 0 i hfind
  rw [Nat.sub_zero] at hreq
  constructor
  · intro hocc
    simp [handleHostMessage, hfind, hocc]
  · intro hfree
    refine ⟨req, hreq, by simpa using hpid, ?_⟩
    simp only [handleHostMessage, hfind, hfree, Bool.false_eq_true, if_neg]
    rw [setSeatAt_eq_set g.players i req hreq seat]
    simp

/-- C7 witness: in the concrete lobby `gSeats`, the guest's request for
the occupied seat 1 is silently dropped, and the guest's request for the
free seat 2 seats the guest. -/
theorem claimSeat_resolution_witness :
    (handleHostMessage gSeats (.claimSeat "guest" 1) = (gSeats, false)) ∧
    (∃ req, gSeats.players.get? 1 = some req ∧ req.id = "guest" ∧
      handleHostMessage gSeats (.claimSeat "guest" 2)
        = ({ gSeats with players :=
              gSeats.players.set 1 { req with seatNumber := some 2 } }, true)) := by
  have h1 := claimSeat_resolution gSeats "guest" 1 1 (by decide)
  have h2 := claimSeat_resolution gSeats "guest" 2 1 (by decide)
  exact ⟨h1.1 (by decide), h2.2 (by decide)⟩

/-- C5 amended: the night-order sequence the host steps through is the
full fixed catalog sequence (every role with a positive night order, in
priority order), with no filtering to the roles actually dealt; when
the advanced index reaches the sequence length the host transitions to
`DAY_DISCUSSION` and designates the participant at the randomly drawn
index as first speaker, and otherwise the index simply advances. -/
theorem nightSequence_unfiltered_advance (g : GameState) (r : Nat)
    (hr : r < g.players.length) :
    NIGHT_SEQUENCE = [RoleType.WEREWOLF, .MINION, .MASON, .SEER, .ROBBER,
      .TROUBLEMAKER, .DRUNK, .INSOMNIAC] ∧
    (g.currentNightRoleIndex + 1 ≥ NIGHT_SEQUENCE.length →
      (advanceNightPhase g r).currentPhase = GamePhase.DAY_DISCUSSION ∧
      ∃ p, p ∈ g.players ∧ (advanceNightPhase g r).speakerId = some p.id) ∧
    (g.currentNightRoleIndex + 1 < NIGHT_SEQUENCE.length →
      (advanceNightPhase g r).currentNightRoleIndex
          = g.currentNightRoleIndex + 1 ∧
      (advanceNightPhase g r).currentPhase = g.currentPhase) := by
  refine ⟨by decide, ?_, ?_⟩
  · intro hday
    have hget : g.players.get? r = some (g.players.get ⟨r, hr⟩) :=
      List.get?_eq_get hr
    constructor
    · simp [advanceNightPhase, hday]
    · refine ⟨g.players.get ⟨r, hr⟩, List.get_mem _ _ _, ?_⟩
      simp only [advanceNightPhase, hday, if_pos]
      rw [hget]
      rfl
  · intro hnight
    have hno : ¬ (g.currentNightRoleIndex + 1 ≥ NIGHT_SEQUENCE.length) := by
      omega
    constructor
    · simp [advanceNightPhase, hno]
    · simp [advanceNightPhase, hno]

/-- C5 amended witness: instantiation of
`nightSequence_unfiltered_advance` at the concrete dealt state
`gNightIdx1` (night index 1 of 8) with drawn speaker index 0. -/
theorem nightSequence_unfiltered_advance_witness :
    (advanceNightPhase gNightIdx1 0).currentNightRoleIndex = 2 ∧
    (advanceNightPhase gNightIdx1 0).currentPhase
      = gNightIdx1.currentPhase := by
  have h := nightSequence_unfiltered_advance gNightIdx1 0 (by decide)
  have h2 := h.2.2 (by decide)
  exact ⟨h2.1.trans (by decide), h2.2⟩

theorem assignRoles_length : ∀ (ps : List Player) (rs : List RoleType),
    (assignRoles ps rs).length = ps.length
  | [], [] => rfl
  | [], _ :: _ => rfl
  | p :: ps, r :: rs => by
    simp [assignRoles, assignRoles_length ps rs]
  | p :: ps, [] => by
    simp [assignRoles, assignRoles_length ps []]

theorem assignRoles_eq_zipWith : ∀ (ps : List Player) (rs : List RoleType),
    ps.length ≤ rs.length →
    assignRoles ps rs
      = List.zipWith
          (fun p r => { p with role := some r, initialRole := some r }) ps rs
  | [], [], _ => rfl
  | [], _ :: _, _ => rfl
  | p :: ps, [], h => by simp at h
  | p :: ps, r :: rs, h => by
    show _ :: assignRoles ps rs = _ :: List.zipWith _ ps rs
    rw [assignRoles_eq_zipWith ps rs (by simpa using h)]

theorem assignRoles_filterMap : ∀ (ps : List Player) (rs : List RoleType),
    ps.length ≤ rs.length →
    (assignRoles ps rs).filterMap (fun p => p.role) = rs.take ps.length
  | [], rs, _ => by simp [assignRoles]
  | p :: ps, [], h => by simp at h
  | p :: ps, r :: rs, h => by
    show List.filterMap _ (_ :: assignRoles ps rs) = (r :: rs).take (ps.length + 1)
    rw [List.filterMap_cons, List.take_succ_cons]
    simpa using assignRoles_filterMap ps rs (by simpa using h)

theorem projectedDeck_eq_take (n : Nat) (h3 : 3 ≤ n) :
    projectedDeck n = balanceOrder.take (n + 3) := by
  unfold projectedDeck
  rw [Nat.max_eq_left h3]

theorem projectedDeck_length (n : Nat) (h3 : 3 ≤ n) (h10 : n ≤ 10) :
    (projectedDeck n).length = n + 3 := by
  rw [projectedDeck_eq_take n h3, List.length_take]
  have hb : balanceOrder.length = 13 := rfl
  rw [hb]
  omega

/-- C6: the deterministic part of the deal. For every valid player
count the Deck Builder's output has length `n + 3` and is exactly the
length-`(n + 3)` prefix of the fixed balanced template; at game start
the (shuffle-produced) permutation of the deck is zipped against the
players sorted by seat number, each player receiving the same card as
`role` and `initialRole`; the remaining cards become the center cards,
the phase becomes `ROLE_REVEAL`, and the votes map is emptied. (The
shuffle itself is the code_bug part of the claim: the source computes
it by `Array.prototype.sort` with the inconsistent comparator
`() => 0.5 - Math.random()`, which is not a uniform shuffle; it enters
this statement only as an arbitrary permutation.) -/
theorem startGame_deck_zip (n : Nat) (g : GameState) (shuffled : List RoleType)
    (h3 : 3 ≤ n) (h10 : n ≤ 10) (hperm : shuffled.Perm (projectedDeck n))
    (hlen : g.players.length ≤ n + 3) :
    (projectedDeck n).length = n + 3 ∧
    projectedDeck n = balanceOrder.take (n + 3) ∧
    (startGame g shuffled).players
      = List.zipWith
          (fun p r => { p with role := some r, initialRole := some r })
          (sortPlayersBySeat g.players) shuffled ∧
    (startGame g shuffled).centerCards = shuffled.drop g.players.length ∧
    (startGame g shuffled).currentPhase = GamePhase.ROLE_REVEAL ∧
    (startGame g shuffled).votes = [] := by
  have hsl : (sortPlayersBySeat g.players).length = g.players.length :=
    List.length_insertionSort _ _
  have hshuf : shuffled.length = n + 3 :=
    hperm.length_eq.trans (projectedDeck_length n h3 h10)
  have hle : (sortPlayersBySeat g.players).length ≤ shuffled.length := by
    omega
  refine ⟨projectedDeck_length n h3 h10, projectedDeck_eq_take n h3, ?_, ?_,
    rfl, rfl⟩
  · show assignRoles (sortPlayersBySeat g.players) shuffled = _
    exact assignRoles_eq_zipWith _ _ hle
  · show shuffled.drop (assignRoles (sortPlayersBySeat g.players) shuffled).length = _
    rw [assignRoles_length, hsl]

/-- C6 witness: instantiation of `startGame_deck_zip` for a 4-player
game dealt from the template-order permutation of the deck. -/
theorem startGame_deck_zip_witness :
    (projectedDeck 4).length = 4 + 3 ∧
    (startGame gLobby4 (projectedDeck 4)).centerCards
      = (projectedDeck 4).drop gLobby4.players.length ∧
    (startGame gLobby4 (projectedDeck 4)).votes = [] := by
  have h := startGame_deck_zip 4 gLobby4 (projectedDeck 4) (by decide)
    (by decide) (List.Perm.refl _) (by decide)
  exact ⟨h.1, h.2.2.2.1, h.2.2.2.2.2⟩

/-- C10: for every valid player count the deck contains exactly two
Werewolf cards (the first two template entries), and a dealt game's
hands plus center cards together still hold exactly two Werewolf
cards. -/
theorem two_werewolves_dealt (n : Nat) (g : GameState)
    (shuffled : List RoleType) (h3 : 3 ≤ n) (h10 : n ≤ 10)
    (hperm : shuffled.Perm (projectedDeck n))
    (hlen : g.players.length ≤ n + 3) :
    (projectedDeck n).count RoleType.WEREWOLF = 2 ∧
    (((startGame g shuffled).players.filterMap (fun p => p.role))
        ++ (startGame g shuffled).centerCards).count RoleType.WEREWOLF
      = 2 := by
  have hcount : (projectedDeck n).count RoleType.WEREWOLF = 2 := by
    interval_cases n <;> decide
  refine ⟨hcount, ?_⟩
  have hsl : (sortPlayersBySeat g.players).length = g.players.length :=
    List.length_insertionSort _ _
  have hshuf : shuffled.length = n + 3 :=
    hperm.length_eq.trans (projectedDeck_length n h3 h10)
  have hle : (sortPlayersBySeat g.players).length ≤ shuffled.length := by
    omega
  have hhands : (startGame g shuffled).players.filterMap (fun p => p.role)
      = shuffled.take (sortPlayersBySeat g.players).length :=
    assignRoles_filterMap _ _ hle
  have hcenter : (startGame g shuffled).centerCards
      = shuffled.drop (sortPlayersBySeat g.players).length := by
    show shuffled.drop (assignRoles (sortPlayersBySeat g.players) shuffled).length = _
    rw [assignRoles_length]
  rw [hhands, hcenter, List.take_append_drop, hperm.count_eq]
  exact hcount

/-- C10 witness: instantiation of `two_werewolves_dealt` for a dealt
3-player game. -/
theorem two_werewolves_dealt_witness :
    (projectedDeck 3).count RoleType.WEREWOLF = 2 ∧
    (((startGame gLobby3 (projectedDeck 3)).players.filterMap
          (fun p => p.role))
        ++ (startGame gLobby3 (projectedDeck 3)).centerCards).count
        RoleType.WEREWOLF = 2 := by
  exact two_werewolves_dealt 3 gLobby3 (projectedDeck 3) (by decide)
    (by decide) (List.Perm.refl _) (by decide)

theorem countsFor_any_iff {h : List String} {acc : List (String × Nat)}
    (hacc : CountsFor h acc) (k : String) :
    acc.any (fun p => p.1 = k) = true ↔ k ∈ h := by
  constructor
  · intro hany
    rcases List.any_eq_true.mp hany with ⟨p, hp, hpk⟩
    have hpk' : p.1 = k := by simpa using hpk
    have := (hacc p.1 p.2).mp hp
    rw [← hpk']
    exact this.1
  · intro hk
    exact List.any_eq_true.mpr ⟨(k, h.count k), (hacc k (h.count k)).mpr ⟨hk, rfl⟩,
      by simp⟩

theorem countsFor_bump {h : List String} {acc : List (String × Nat)}
    (hacc : CountsFor h acc) (k : String) :
    CountsFor (h ++ [k]) (bumpCount acc k) := by
  intro t c
  unfold bumpCount
  by_cases hany : acc.any (fun p => p.1 = k) = true
  · have hkh : k ∈ h := (countsFor_any_iff hacc k).mp hany
    rw [if_pos hany]
    constructor
    · intro hmem
      rcases List.mem_map.mp hmem with ⟨p, hp, hfp⟩
      by_cases hpk : p.1 = k
      · rw [if_pos hpk] at hfp
        injection hfp with hfp1 hfp2
        have ht : t = p.1 := hfp1.symm
        have hc : c = p.2 + 1 := hfp2.symm
        have := (hacc p.1 p.2).mp hp
        subst ht
        rw [hpk]
        refine ⟨by simp, ?_⟩
        rw [List.count_append, List.count_singleton]
        rw [hpk] at this
        have hcnt : p.2 = h.count k := by
          have := (hacc k p.2).mp (by rw [← hpk]; exact hp)
          exact this.2
        simp [hc, hcnt]
      · rw [if_neg hpk] at hfp
        have hpt : p = (t, c) := hfp
        have := (hacc t c).mp (hpt ▸ hp)
        have htk : t ≠ k := by
          intro he
          apply hpk
          rw [hpt, he]
        refine ⟨List.mem_append_left _ this.1, ?_⟩
        rw [List.count_append, List.count_singleton]
        simp [htk, Ne.symm htk, this.2]
    · intro ⟨hmem, hc⟩
      by_cases htk : t = k
      · subst htk
        have hcnt : c = h.count t + 1 := by
          rw [hc, List.count_append, List.count_singleton]
          simp
        refine List.mem_map.mpr ⟨(t, h.count t), (hacc t (h.count t)).mpr
          ⟨hkh, rfl⟩, ?_⟩
        simp [hcnt]
      · have hth : t ∈ h := by
          rcases List.mem_append.mp hmem with h1 | h1
          · exact h1
          · exact absurd (List.mem_singleton.mp h1) htk
        have hcnt : c = h.count t := by
          rw [hc, List.count_append, List.count_singleton]
          simp [htk, Ne.symm htk]
        refine List.mem_map.mpr ⟨(t, c), (hacc t c).mpr ⟨hth, hcnt⟩, ?_⟩
        simp [htk]
  · have hkh : k ∉ h := fun hk =>
      hany ((countsFor_any_iff hacc k).mpr hk)
    rw [if_neg hany]
    constructor
    · intro hmem
      rcases List.mem_append.mp hmem with h1 | h1
      · have := (hacc t c).mp h1
        have htk : t ≠ k := by
          intro he
          exact hkh (he ▸ this.1)
        refine ⟨List.mem_append_left _ this.1, ?_⟩
        rw [List.count_append, List.count_singleton]
        simp [htk, Ne.symm htk, this.2]
      · have hpt : (t, c) = (k, 1) := List.mem_singleton.mp h1
        have ht : t = k := congrArg Prod.fst hpt
        have hc : c = 1 := congrArg Prod.snd hpt
        subst ht
        refine ⟨by simp, ?_⟩
        rw [List.count_append, List.count_singleton,
          List.count_eq_zero_of_not_mem hkh]
        simp [hc]
    · intro ⟨hmem, hc⟩
      by_cases htk : t = k
      · subst htk
        have : c = 1 := by
          rw [hc, List.count_append, List.count_singleton,
            List.count_eq_zero_of_not_mem hkh]
          simp
        exact List.mem_append_right _ (by simp [this])
      · have hth : t ∈ h := by
          rcases List.mem_append.mp hmem with h1 | h1
          · exact h1
          · exact absurd (List.mem_singleton.mp h1) htk
        have hcnt : c = h.count t := by
          rw [hc, List.count_append, List.count_singleton]
          simp [htk, Ne.symm htk]
        exact List.mem_append_left _ ((hacc t c).mpr ⟨hth, hcnt⟩)

theorem countsFor_foldl :
    ∀ (ts h : List String) (acc : List (String × Nat)), CountsFor h acc →
      CountsFor (h ++ ts) (ts.foldl bumpCount acc)
  | [], h, acc, hacc => by simpa using hacc
  | k :: ts, h, acc, hacc => by
    have hstep :=
      countsFor_foldl ts (h ++ [k]) (bumpCount acc k) (countsFor_bump hacc k)
    rw [List.foldl_cons]
    have hassoc : (h ++ [k]) ++ ts = h ++ (k :: ts) := by
      rw [List.append_assoc, List.singleton_append]
    rwa [hassoc] at hstep

theorem voteCounts_mem (ts : List String) (t : String) (c : Nat) :
    (t, c) ∈ voteCounts ts ↔ (t ∈ ts ∧ c = ts.count t) := by
  have : CountsFor ([] ++ ts) (ts.foldl bumpCount []) :=
    countsFor_foldl ts [] [] (by intro t c; simp)
  rw [List.nil_append] at this
  exact this t c

theorem le_foldrMax : ∀ (l : List Nat), ∀ x ∈ l, x ≤ l.foldr Nat.max 0
  | [], x, hx => absurd hx (List.not_mem_nil x)
  | a :: l, x, hx => by
    rw [List.foldr_cons]
    rcases List.mem_cons.mp hx with h | h
    · rw [h]
      exact Nat.le_max_left _ _
    · exact Nat.le_trans (le_foldrMax l x h) (Nat.le_max_right _ _)

theorem foldrMax_le : ∀ (l : List Nat) (b : Nat),
    (∀ x ∈ l, x ≤ b) → l.foldr Nat.max 0 ≤ b
  | [], b, _ => Nat.zero_le b
  | a :: l, b, h => by
    rw [List.foldr_cons]
    exact Nat.max_le.mpr ⟨h a (List.mem_cons_self a l),
      foldrMax_le l b (fun x hx => h x (List.mem_cons_of_mem a hx))⟩

theorem foldl_step_max :
    ∀ (m : List (String × Nat)) (a : Nat),
      m.foldl (fun mx p => if p.2 > mx then p.2 else mx) a
        = Nat.max a ((m.map Prod.snd).foldr Nat.max 0)
  | [], a => by simp
  | p :: m, a => by
    rw [List.foldl_cons, foldl_step_max m _, List.map_cons, List.foldr_cons]
    have hstep : (if p.2 > a then p.2 else a) = Nat.max a p.2 := by
      by_cases hc : p.2 > a
      · rw [if_pos hc]
        exact (Nat.max_eq_right (Nat.le_of_lt hc)).symm
      · rw [if_neg hc]
        exact (Nat.max_eq_left (Nat.le_of_not_lt hc)).symm
    rw [hstep]
    exact Nat.max_assoc _ _ _

theorem maxVotes_eq_foldr (m : List (String × Nat)) :
    maxVotes m = (m.map Prod.snd).foldr Nat.max 0 := by
  unfold maxVotes
  rw [foldl_step_max]
  exact Nat.zero_max _

theorem maxVotes_voteCounts (ts : List String) :
    maxVotes (voteCounts ts) = maxTallySpec ts := by
  apply Nat.le_antisymm
  · rw [maxVotes_eq_foldr]
    apply foldrMax_le
    intro x hx
    rcases List.mem_map.mp hx with ⟨p, hp, hpx⟩
    have := (voteCounts_mem ts p.1 p.2).mp hp
    have hmem : ts.count p.1 ∈ ts.map (fun t => ts.count t) :=
      List.mem_map_of_mem _ this.1
    have hle := le_foldrMax _ _ hmem
    rw [← hpx, this.2]
    exact hle
  · apply foldrMax_le
    intro x hx
    rcases List.mem_map.mp hx with ⟨t, ht, htx⟩
    have hmem : (t, ts.count t) ∈ voteCounts ts :=
      (voteCounts_mem ts t (ts.count t)).mpr ⟨ht, rfl⟩
    have hval : ts.count t ∈ (voteCounts ts).map Prod.snd :=
      List.mem_map.mpr ⟨(t, ts.count t), hmem, rfl⟩
    rw [← htx]
    rw [maxVotes_eq_foldr]
    exact le_foldrMax _ _ hval

theorem deadIdsOf_mem_iff (ts : List String) (t : String) :
    t ∈ deadIdsOf ts ↔ (ts.count t = maxTallySpec ts ∧ 0 < ts.count t) := by
  simp only [deadIdsOf]
  rw [maxVotes_voteCounts]
  by_cases hmx : maxTallySpec ts > 0
  · rw [if_pos hmx]
    constructor
    · intro hmem
      rcases List.mem_map.mp hmem with ⟨p, hp, hpt⟩
      rcases List.mem_filter.mp hp with ⟨hpc, hpm⟩
      have hpm' : p.2 = maxTallySpec ts := by simpa using hpm
      have := (voteCounts_mem ts p.1 p.2).mp hpc
      rw [← hpt, ← this.2, hpm']
      exact ⟨rfl, by omega⟩
    · intro ⟨hcnt, hpos⟩
      have hmem : (t, ts.count t) ∈ voteCounts ts :=
        (voteCounts_mem ts t (ts.count t)).mpr
          ⟨List.count_pos_iff.mp hpos, rfl⟩
      refine List.mem_map.mpr ⟨(t, ts.count t), ?_, rfl⟩
      exact List.mem_filter.mpr ⟨hmem, by simpa using hcnt⟩
  · rw [if_neg hmx]
    simp only [List.not_mem_nil, false_iff]
    intro ⟨hcnt, hpos⟩
    omega

/-- C2: for every votes map, the executed set computed by vote
resolution is exactly the set of targets whose tally equals the highest
tally (which is 0 when no votes were cast): every tied maximal target
is executed, nobody else is, and with no votes nobody is executed.
The final conjunct checks the claim's 2-2 tie instance: 4 voters split
evenly between targets `B` and `A` execute exactly those two. -/
theorem voteResolution_executed_set :
    (∀ g : GameState, ∃ res, (processVotingResults g).gameResult = some res ∧
      ∀ t, t ∈ res.deadPlayerIds ↔
        (tallyOf (g.votes.map (fun p => p.2)) t
            = maxTallySpec (g.votes.map (fun p => p.2)) ∧
         0 < tallyOf (g.votes.map (fun p => p.2)) t)) ∧
    (∃ resTie, (processVotingResults gTie).gameResult = some resTie ∧
      resTie.deadPlayerIds = ["B", "A"]) := by
  constructor
  · intro g
    refine ⟨_, rfl, ?_⟩
    intro t
    exact deadIdsOf_mem_iff (g.votes.map (fun p => p.2)) t
  · exact ⟨_, rfl, by decide⟩

theorem winners_match (players : List Player) (votes : List (String × String))
    (hv : ∀ pr ∈ votes, ∃ p, p ∈ players ∧ p.id = pr.2) :
    (if (players.filter (fun p =>
          (deadIdsOf (votes.map (fun q => q.2))).contains p.id)).any
          (fun p => p.role = some RoleType.TANNER) then
       ([RoleTeam.TANNER] : List RoleTeam)
     else if (players.filter (fun p =>
          (deadIdsOf (votes.map (fun q => q.2))).contains p.id)).any
          (fun p => p.role = some RoleType.WEREWOLF) then
       [RoleTeam.VILLAGER]
     else if (players.filter (fun p => p.role = some RoleType.WEREWOLF)).length = 0
         ∧ (players.filter (fun p =>
              (deadIdsOf (votes.map (fun q => q.2))).contains p.id)).length = 0 then
       [RoleTeam.VILLAGER]
     else if (players.filter (fun p => p.role = some RoleType.WEREWOLF)).length = 0
         ∧ (players.filter (fun p =>
              (deadIdsOf (votes.map (fun q => q.2))).contains p.id)).length > 0 then
       [RoleTeam.WEREWOLF]
     else [RoleTeam.WEREWOLF])
    = claimWinners players (deadIdsOf (votes.map (fun q => q.2))) := by
  have hD_sub : ∀ t ∈ deadIdsOf (votes.map (fun q => q.2)),
      t ∈ votes.map (fun q => q.2) := by
    intro t ht
    exact List.count_pos_iff.mp ((deadIdsOf_mem_iff _ t).mp ht).2
  set D := deadIdsOf (votes.map (fun q => q.2)) with hD
  set dps := players.filter (fun p => D.contains p.id) with hdps
  have e1 : (dps.any (fun p => p.role = some RoleType.TANNER) = true)
      ↔ (∃ p ∈ players, D.contains p.id ∧ p.role = some RoleType.TANNER) := by
    rw [hdps]
    simp [List.any_eq_true, List.mem_filter, and_assoc]
  have e2 : (dps.any (fun p => p.role = some RoleType.WEREWOLF) = true)
      ↔ (∃ p ∈ players, D.contains p.id ∧ p.role = some RoleType.WEREWOLF) := by
    rw [hdps]
    simp [List.any_eq_true, List.mem_filter, and_assoc]
  have ewolf : ((players.filter
        (fun p => p.role = some RoleType.WEREWOLF)).length = 0)
      ↔ (∀ p ∈ players, p.role ≠ some RoleType.WEREWOLF) := by
    rw [List.length_eq_zero, List.filter_eq_nil_iff]
    simp
  have edead : (dps.length = 0) ↔ D = [] := by
    constructor
    · intro h0
      by_contra hne
      obtain ⟨t, ht⟩ := List.exists_mem_of_ne_nil D hne
      obtain ⟨pr, hpr, hpr2⟩ := List.mem_map.mp (hD_sub t ht)
      obtain ⟨p, hp, hpid⟩ := hv pr hpr
      have hcont : D.contains p.id = true := by
        rw [hpid, hpr2]
        simp only [List.contains, List.elem_iff]
        exact ht
      have hpd : p ∈ dps := by
        rw [hdps]
        exact List.mem_filter.mpr ⟨hp, hcont⟩
      rw [List.length_eq_zero] at h0
      rw [h0] at hpd
      exact absurd hpd (List.not_mem_nil p)
    · intro hDnil
      rw [List.length_eq_zero, hdps, hDnil]
      apply List.filter_eq_nil_iff.mpr
      intro p _
      simp
  unfold claimWinners
  by_cases h1 : ∃ p ∈ players, D.contains p.id ∧ p.role = some RoleType.TANNER
  · rw [if_pos (e1.mpr h1), if_pos h1]
  · rw [if_neg (fun hb => h1 (e1.mp hb)), if_neg h1]
    by_cases h2 : ∃ p ∈ players, D.contains p.id ∧ p.role = some RoleType.WEREWOLF
    · rw [if_pos (e2.mpr h2), if_pos h2]
    · rw [if_neg (fun hb => h2 (e2.mp hb)), if_neg h2]
      by_cases h3 : (∀ p ∈ players, p.role ≠ some RoleType.WEREWOLF) ∧ D = []
      · rw [if_pos ⟨ewolf.mpr h3.1, edead.mpr h3.2⟩, if_pos h3]
      · have h3' : ¬((players.filter
            (fun p => p.role = some RoleType.WEREWOLF)).length = 0
            ∧ dps.length = 0) :=
          fun hb => h3 ⟨ewolf.mp hb.1, edead.mp hb.2⟩
        rw [if_neg h3', if_neg h3]
        by_cases h4 : (∀ p ∈ players, p.role ≠ some RoleType.WEREWOLF) ∧ D ≠ []
        · rw [if_pos ⟨ewolf.mpr h4.1,
            Nat.pos_of_ne_zero (fun h0 => h4.2 (edead.mp h0))⟩, if_pos h4]
        · have h4' : ¬((players.filter
              (fun p => p.role = some RoleType.WEREWOLF)).length = 0
              ∧ dps.length > 0) := by
            intro hb
            apply h4
            refine ⟨ewolf.mp hb.1, fun hD0 => ?_⟩
            have h0 : dps.length = 0 := edead.mpr hD0
            omega
          rw [if_neg h4', if_neg h4]

/-- C1: when the host resolves voting the session moves to
`DAY_RESULTS` and, provided every cast vote targets a connected
participant, the winning team recorded in the game result is exactly
the one determined by the claim's strict priority order over the final
executed set and the players' current (possibly swapped) roles. -/
theorem processVotingResults_winners_priority (g : GameState)
    (hv : ∀ pr ∈ g.votes, ∃ p, p ∈ g.players ∧ p.id = pr.2) :
    (processVotingResults g).currentPhase = GamePhase.DAY_RESULTS ∧
    ∃ res, (processVotingResults g).gameResult = some res ∧
      res.winners = claimWinners g.players res.deadPlayerIds := by
  exact ⟨rfl, _, rfl, winners_match g.players g.votes hv⟩

/-- C1 witness: instantiation of `processVotingResults_winners_priority`
at the concrete tie state `gTannerWolf` executing a Tanner and a
Werewolf simultaneously. -/
theorem processVotingResults_winners_priority_witness :
    (processVotingResults gTannerWolf).currentPhase
      = GamePhase.DAY_RESULTS ∧
    ∃ res, (processVotingResults gTannerWolf).gameResult = some res ∧
      res.winners = claimWinners gTannerWolf.players res.deadPlayerIds := by
  exact processVotingResults_winners_priority gTannerWolf (by decide)

end ONUW
